import Mathlib

/-!
Shallow embedding of the enrollment / recipient core of the `envlock`
repository (Go), covering:

* the enroll package in `src/cmd/server/main.go` (invites, tokens, join
  requests, validation),
* the recipient registry in `src/internal/recipients/store.go`,
* the approval orchestration `runEnrollApprove` in `src/internal/app/app.go`.

Modelling conventions:

* Go `time.Time` is modelled as `Int` (a point on the time line);
  the Go zero time is `0`, `t.IsZero()` is `t = 0`, `a.After b` is `b < a`,
  `time.Duration` is an `Int` added to a time.
* Go strings are Lean `String`s; the Go `strings` helpers used by the code
  (`TrimSpace`, `Split`, `HasPrefix`/`TrimPrefix`, `EqualFold`) are modelled
  by explicit recursions over the underlying `List Char` (ASCII case).
* Calls to the random source (`randomHex`, `randomTokenSecret`) and to the
  clock (`time.Now().UTC()`) are modelled by passing the drawn value / the
  current time as an explicit argument.
* SHA-256 (`secretHash`) is external crypto; it is modelled as an injective
  tagging function that keeps the source's trimming behaviour and assumes
  collision-freeness.
* Fallible Go functions returning `error` become `Except`/`Option`
  (`none` = `nil` error); functions mutating through a pointer receiver
  return the error together with the updated value, the unchanged value
  being returned on every early-error path, exactly as the Go code leaves
  the receiver untouched there.
-/

namespace Envlock

/-- Decidable equality for `Except`, so that concrete runs of the fallible
operations can be checked by `decide`. -/
instance {ε α : Type} [DecidableEq ε] [DecidableEq α] : DecidableEq (Except ε α)
  | .error a, .error b =>
    if h : a = b then .isTrue (by rw [h]) else .isFalse (by simp [h])
  | .error _, .ok _ => .isFalse (by simp)
  | .ok _, .error _ => .isFalse (by simp)
  | .ok a, .ok b =>
    if h : a = b then .isTrue (by rw [h]) else .isFalse (by simp [h])

/-- ASCII whitespace of Go's `unicode.IsSpace` (model of what
`strings.TrimSpace` strips; the Latin-1 additions are irrelevant here). -/
def isGoSpace (c : Char) : Bool :=
  c = ' ' || c = '\t' || c = '\n' || c = '\r' || c = '\x0b' || c = '\x0c'

/-- Trim `isGoSpace` characters from both ends of a character list. -/
def trimList (l : List Char) : List Char :=
  ((l.dropWhile isGoSpace).reverse.dropWhile isGoSpace).reverse

/-- Model of Go `strings.TrimSpace`. -/
def goTrim (s : String) : String := String.mk (trimList s.data)

/-- Model of Go `strings.Split` with a one-character separator
(`strings.Split(s, ".")` in `ParseToken`). -/
def splitChar (sep : Char) : List Char → List (List Char)
  | [] => [[]]
  | c :: cs =>
    if c = sep then [] :: splitChar sep cs
    else
      match splitChar sep cs with
      | [] => [[c]]
      | x :: xs => (c :: x) :: xs

/-- Model of Go `strings.EqualFold` (ASCII simple case folding). -/
def goEqFold (a b : String) : Bool :=
  a.data.map Char.toLower == b.data.map Char.toLower

/-- Model of Go `strings.HasPrefix`. -/
def goHasPrefix (s p : String) : Bool := p.data.isPrefixOf s.data

/-- Model of Go `strings.TrimPrefix` under a established `HasPrefix`. -/
def goDropLen (s p : String) : String := String.mk (s.data.drop p.data.length)

/- ===== Enroll package (`src/cmd/server/main.go`, package `enroll`) ===== -/

def InviteStatusActive : String := "active"
def InviteStatusUsed : String := "used"
def InviteStatusRevoked : String := "revoked"
def RequestStatusPending : String := "pending"
def RequestStatusApproved : String := "approved"
def RequestStatusRejected : String := "rejected"

/-- The enroll package's error values: the named `errors.New` sentinels plus
the `errors.New`/`fmt.Errorf` messages built inline by its functions. -/
inductive EnrollErr where
  | invalidToken
  | inviteExpired
  | inviteNotFound
  | inviteUsed
  | requestNotFound
  | ttlNotPositive
  | inviteIdRequired
  | inviteStatusIs (status : String)
  | pendingForInvite (inviteID : String)
  | devicePending (deviceName : String)
deriving Repr, DecidableEq

structure Invite where
  version : Int
  id : String
  secretHash : String
  status : String
  createdAt : Int
  expiresAt : Int
  createdBy : String
  usedByRequestID : String
  usedAt : Int
deriving Repr, DecidableEq

structure Request where
  version : Int
  id : String
  inviteID : String
  status : String
  createdAt : Int
  decisionAt : Int
  decisionNote : String
  deviceName : String
  publicKey : String
  fingerprint : String
deriving Repr, DecidableEq

def sha256Tag : List Char := ['s', 'h', 'a', '2', '5', '6', ':']

/-- `secretHash` of the source: hex-encoded SHA-256 of the trimmed secret.
The hash function itself is external; modelled as an injective tag of the
trimmed secret (determinism and collision-freeness of SHA-256). -/
def secretHash (secret : String) : String :=
  String.mk (sha256Tag ++ trimList secret.data)

/-- `formatToken` of the source. -/
def formatToken (id secret : String) : String :=
  "envlock-invite-" ++ id ++ "." ++ secret

/-- `NewInvite(ttl, createdBy)` with the random draws (`randomHex(8)` for the
id, `randomTokenSecret(18)` for the secret) and `time.Now().UTC()` passed
explicitly. -/
def NewInvite (ttl : Int) (createdBy : String) (id secret : String) (now : Int) :
    Except EnrollErr (Invite × String) :=
  if ttl ≤ 0 then .error .ttlNotPositive
  else
    .ok ({ version := 1
           id := id
           secretHash := secretHash secret
           status := InviteStatusActive
           createdAt := now
           expiresAt := now + ttl
           createdBy := goTrim createdBy
           usedByRequestID := ""
           usedAt := 0 },
         formatToken id secret)

/-- `ParseToken` of the source. -/
def ParseToken (token : String) : Except EnrollErr (String × String) :=
  let t := goTrim token
  if goHasPrefix t "envlock-invite-" then
    let body := goDropLen t "envlock-invite-"
    match (splitChar '.' body.data).map String.mk with
    | [a, b] =>
      if goTrim a = "" || goTrim b = "" then .error .invalidToken
      else .ok (a, b)
    | _ => .error .invalidToken
  else .error .invalidToken

/-- `VerifyToken` of the source; `none` is the nil (success) return. -/
def VerifyToken (invite : Invite) (token : String) : Option EnrollErr :=
  match ParseToken token with
  | .error e => some e
  | .ok (id, secret) =>
    if goTrim invite.id ≠ goTrim id then some .invalidToken
    else if invite.secretHash ≠ secretHash secret then some .invalidToken
    else none

/-- `isInviteExpired` of the source: a non-zero `expires_at` strictly in the
past. -/
def isInviteExpired (invite : Invite) (now : Int) : Bool :=
  invite.expiresAt != 0 && decide (invite.expiresAt < now)

/-- `ValidateInviteForJoin` of the source. -/
def ValidateInviteForJoin (invite : Invite) (now : Int) : Option EnrollErr :=
  if invite.status = InviteStatusUsed then some .inviteUsed
  else if invite.status ≠ "" ∧ invite.status ≠ InviteStatusActive then
    some (.inviteStatusIs invite.status)
  else if isInviteExpired invite now then some .inviteExpired
  else none

/-- `ValidateInviteForApproval` of the source: same status checks as
`ValidateInviteForJoin` but no expiry check at all. -/
def ValidateInviteForApproval (invite : Invite) : Option EnrollErr :=
  if invite.status = InviteStatusUsed then some .inviteUsed
  else if invite.status ≠ "" ∧ invite.status ≠ InviteStatusActive then
    some (.inviteStatusIs invite.status)
  else none

/-- The `for _, r := range existing` conflict scan of `NewJoinRequest`: the
first element with a pending request for the same invite id, or failing that
(per element, in order) a pending request from the same (trimmed)
fingerprint, decides the error. -/
def findPendingConflict (inviteID fp : String) : List Request → Option EnrollErr
  | [] => none
  | r :: rest =>
    if r.inviteID = inviteID ∧ r.status = RequestStatusPending then
      some (.pendingForInvite inviteID)
    else if r.fingerprint = fp ∧ r.status = RequestStatusPending then
      some (.devicePending r.deviceName)
    else findPendingConflict inviteID fp rest

/-- `NewJoinRequest(existing, invite, deviceName, publicKey, fingerprint)`
with `randomHex(8)` (the new request id) and `time.Now().UTC()` passed
explicitly. -/
def NewJoinRequest (existing : List Request) (invite : Invite)
    (deviceName publicKey fingerprint : String) (now : Int) (newId : String) :
    Except EnrollErr Request :=
  if goTrim invite.id = "" then .error .inviteIdRequired
  else if isInviteExpired invite now then .error .inviteExpired
  else if invite.status = InviteStatusUsed then .error .inviteUsed
  else if invite.status ≠ "" ∧ invite.status ≠ InviteStatusActive then
    .error (.inviteStatusIs invite.status)
  else
    match findPendingConflict invite.id (goTrim fingerprint) existing with
    | some e => .error e
    | none =>
      .ok { version := 1
            id := newId
            inviteID := invite.id
            status := RequestStatusPending
            createdAt := now
            decisionAt := 0
            decisionNote := ""
            deviceName := goTrim deviceName
            publicKey := goTrim publicKey
            fingerprint := goTrim fingerprint }

/- ===== Recipient registry (`src/internal/recipients/store.go`) ===== -/

def StatusActive : String := "active"
def StatusRevoked : String := "revoked"

structure Recipient where
  name : String
  publicKey : String
  fingerprint : String
  createdAt : Int
  status : String
  source : String
  note : String
deriving Repr, DecidableEq

structure Store where
  version : Int
  recipients : List Recipient
deriving Repr, DecidableEq

/-- The recipients package's errors: the two validation messages built with
`errors.New`, and the two `fmt.Errorf` messages wrapping
`ErrDuplicateRecipient`, plus `ErrRecipientNotFound`. -/
inductive RecipErr where
  | nameRequired
  | publicKeyRequired
  | duplicateName (name : String)
  | duplicateRecipient (fingerprint : String)
  | notFound
deriving Repr, DecidableEq

/-- `errors.Is(e, ErrDuplicateRecipient)`: both duplicate messages wrap the
`ErrDuplicateRecipient` sentinel. -/
def RecipErr.isDuplicate : RecipErr → Bool
  | .duplicateName _ => true
  | .duplicateRecipient _ => true
  | _ => false

/-- The `for _, existing := range s.Recipients` duplicate scan of
`Store.Add`: per element, case-insensitive name equality first, then exact
public-key or fingerprint equality. -/
def findDuplicate (r : Recipient) : List Recipient → Option RecipErr
  | [] => none
  | existing :: rest =>
    if goEqFold existing.name r.name then some (.duplicateName r.name)
    else if existing.publicKey = r.publicKey ∨ existing.fingerprint = r.fingerprint then
      some (.duplicateRecipient r.fingerprint)
    else findDuplicate r rest

/-- The normalisation prologue of `Store.Add`: trim the identity fields,
default a zero `created_at` to the current time and an empty status to
`active`. -/
def normalizeRecipient (r : Recipient) (now : Int) : Recipient :=
  { r with
    name := goTrim r.name
    publicKey := goTrim r.publicKey
    fingerprint := goTrim r.fingerprint
    createdAt := if r.createdAt = 0 then now else r.createdAt
    status := if r.status = "" then StatusActive else r.status }

/-- `(*Store).Add` with `time.Now().UTC()` passed explicitly. The Go method
mutates its receiver only on the success path; the pair returns the error
together with the receiver's final value, unchanged on every error path. -/
def Store.Add (s : Store) (r0 : Recipient) (now : Int) : Option RecipErr × Store :=
  let r := normalizeRecipient r0 now
  if r.name = "" then (some .nameRequired, s)
  else if r.publicKey = "" then (some .publicKeyRequired, s)
  else
    match findDuplicate r s.recipients with
    | some e => (some e, s)
    | none => (none, { s with recipients := s.recipients ++ [r] })

/-- `(*Store).findIndex`-then-set of `Revoke`, as a single first-match
recursion: locate the first entry whose name or fingerprint case-insensitively
equals the trimmed query and set its status to revoked in place, returning
the (updated) entry and the updated list. -/
def revokeFirst (q : String) : List Recipient → Option (Recipient × List Recipient)
  | [] => none
  | r :: rest =>
    if goEqFold r.name q || goEqFold r.fingerprint q then
      some ({ r with status := StatusRevoked }, { r with status := StatusRevoked } :: rest)
    else
      match revokeFirst q rest with
      | none => none
      | some (x, rest') => some (x, r :: rest')

/-- `(*Store).Revoke`. The pair returns the result together with the
receiver's final value, unchanged when the lookup misses. -/
def Store.Revoke (s : Store) (query : String) : Except RecipErr Recipient × Store :=
  match revokeFirst (goTrim query) s.recipients with
  | none => (.error .notFound, s)
  | some (r, rs) => (.ok r, { s with recipients := rs })

/-- `(*Store).ActiveCount`. -/
def Store.ActiveCount (s : Store) : Nat :=
  (s.recipients.filter (fun r => r.status = StatusActive)).length

/- ===== Approval orchestration (`runEnrollApprove`, `src/internal/app/app.go`)
===== -/

/-- The project's persisted metadata reachable through the remote store
(`rs`): the recipient registry blob, and the invite / request objects keyed
by id. -/
structure ProjectState where
  recipients : Store
  invites : List Invite
  requests : List Request
deriving Repr, DecidableEq

/-- The errors `runEnrollApprove` can return (store I/O aside): the two
lookup misses, the pending-status guard, a validation error from
`ValidateInviteForApproval`, and a non-duplicate `Store.Add` error. -/
inductive AppErr where
  | requestNotFound
  | requestNotPending (id status : String)
  | inviteNotFound
  | enrollErr (e : EnrollErr)
  | recipientErr (e : RecipErr)
deriving Repr, DecidableEq

/-- `rs.LoadRequest`: look up a request by id. -/
def loadRequest (st : ProjectState) (id : String) : Option Request :=
  st.requests.find? (fun r => r.id = id)

/-- `rs.LoadInvite`: look up an invite by id. -/
def loadInvite (st : ProjectState) (id : String) : Option Invite :=
  st.invites.find? (fun i => i.id = id)

/-- `rs.SaveRequest`: overwrite the request object with the given id. -/
def saveRequest (st : ProjectState) (req : Request) : ProjectState :=
  { st with requests := st.requests.map (fun r => if r.id = req.id then req else r) }

/-- `rs.SaveInvite`: overwrite the invite object with the given id. -/
def saveInvite (st : ProjectState) (invite : Invite) : ProjectState :=
  { st with invites := st.invites.map (fun i => if i.id = invite.id then invite else i) }

/-- The recipient record `runEnrollApprove` passes to `Store.Add`: the
request's device identity, `source="enroll-approve"` and a provenance note. -/
def approveRecipient (req : Request) (now : Int) : Recipient :=
  { name := req.deviceName
    publicKey := req.publicKey
    fingerprint := req.fingerprint
    createdAt := now
    status := StatusActive
    source := "enroll-approve"
    note := "Added via enrollment request " ++ req.id }

/-- The write phase of `runEnrollApprove`, reached once the `Store.Add`
error (if any) was recognised as a swallowed duplicate: persist the registry,
mark the request approved, mark the invite used. -/
def approveCommit (st : ProjectState) (store : Store) (req : Request)
    (invite : Invite) (note : String) (now : Int) : ProjectState :=
  let st := { st with recipients := store }
  let req := { req with
               status := RequestStatusApproved
               decisionAt := now
               decisionNote := goTrim note }
  let st := saveRequest st req
  let invite := { invite with
                  status := InviteStatusUsed
                  usedByRequestID := req.id
                  usedAt := now }
  saveInvite st invite

/-- `runEnrollApprove(reqID, note)` over the project state, with
`time.Now().UTC()` passed explicitly. Mirrors the source's sequencing: load
request, pending guard, load invite, `ValidateInviteForApproval`,
`Store.Add` of the request's device (a `DuplicateError` is swallowed, any
other `Add` error aborts before any write), then the three writes: registry,
approved request, used invite. An error return performs no write. -/
def runEnrollApprove (st : ProjectState) (reqIDArg note : String) (now : Int) :
    Except AppErr ProjectState :=
  let reqID := goTrim reqIDArg
  match loadRequest st reqID with
  | none => .error .requestNotFound
  | some req =>
    if req.status ≠ RequestStatusPending then .error (.requestNotPending req.id req.status)
    else
      match loadInvite st req.inviteID with
      | none => .error .inviteNotFound
      | some invite =>
        match ValidateInviteForApproval invite with
        | some e => .error (.enrollErr e)
        | none =>
          match st.recipients.Add (approveRecipient req now) now with
          | (some e, store) =>
            if e.isDuplicate then .ok (approveCommit st store req invite note now)
            else .error (.recipientErr e)
          | (none, store) => .ok (approveCommit st store req invite note now)

/- ===== General lemmas ===== -/

lemma dropWhile_eq_self_of_all {p : Char → Bool} :
    ∀ l : List Char, (∀ c ∈ l, p c = false) → l.dropWhile p = l
  | [], _ => rfl
  | c :: cs, h => by
    have hc : p c = false := h c (by simp)
    simp [List.dropWhile, hc]

lemma trimList_eq_self {l : List Char} (h : ∀ c ∈ l, isGoSpace c = false) :
    trimList l = l := by
  unfold trimList
  rw [dropWhile_eq_self_of_all l h,
    dropWhile_eq_self_of_all l.reverse (fun c hc => h c (List.mem_reverse.mp hc)),
    List.reverse_reverse]

lemma findPendingConflict_ne_expired (a b : String) :
    ∀ l, findPendingConflict a b l ≠ some .inviteExpired := by
  intro l
  induction l with
  | nil => simp [findPendingConflict]
  | cons r rest ih =>
    simp only [findPendingConflict]
    split
    · simp
    · split
      · simp
      · exact ih

/- ===== Claim theorems ===== -/

/-- C4: `ValidateInviteForApproval` never checks expiry: it succeeds for any
invite whose status is `active` or empty (legacy-active), whatever its
`expires_at` (the function takes no clock at all, so "arbitrarily far past
expiry" is covered by quantifying over the whole invite); it fails with
`InviteUsedError` exactly on status `used`, and with the generic status error
on any other non-empty, non-active status. -/
theorem approval_never_checks_expiry (invite : Invite) :
    ((invite.status = "active" ∨ invite.status = "") →
       ValidateInviteForApproval invite = none) ∧
    (invite.status = "used" →
       ValidateInviteForApproval invite = some .inviteUsed) ∧
    (invite.status ≠ "" → invite.status ≠ "active" → invite.status ≠ "used" →
       ValidateInviteForApproval invite = some (.inviteStatusIs invite.status)) := by
  refine ⟨fun h => ?_, fun h => ?_, fun h1 h2 h3 => ?_⟩
  · rcases h with h | h <;>
      simp [ValidateInviteForApproval, InviteStatusUsed, InviteStatusActive, h]
  · simp [ValidateInviteForApproval, InviteStatusUsed, h]
  · simp [ValidateInviteForApproval, InviteStatusUsed, InviteStatusActive, h1, h2, h3]

theorem approval_never_checks_expiry_witness :
    ValidateInviteForApproval
      { version := 1, id := "i1", secretHash := "h", status := "active",
        createdAt := 0, expiresAt := 5, createdBy := "", usedByRequestID := "",
        usedAt := 0 } = none :=
  (approval_never_checks_expiry _).1 (Or.inl rfl)

/-- C5: expiry is strictly-after: for an active invite with non-zero
`expires_at`, `ValidateInviteForJoin` succeeds whenever `now ≤ expires_at`
(equality included) and fails with `InviteExpiredError` exactly when
`now > expires_at`. -/
theorem expiry_strictly_after (invite : Invite) (now : Int)
    (hact : invite.status = "active") (hnz : invite.expiresAt ≠ 0) :
    (now ≤ invite.expiresAt → ValidateInviteForJoin invite now = none) ∧
    (ValidateInviteForJoin invite now = some .inviteExpired ↔
       invite.expiresAt < now) := by
  have hexp : isInviteExpired invite now = decide (invite.expiresAt < now) := by
    simp [isInviteExpired, hnz]
  constructor
  · intro hle
    have hlt : ¬ invite.expiresAt < now := not_lt.mpr hle
    simp [ValidateInviteForJoin, InviteStatusUsed, InviteStatusActive, hact, hexp, hlt]
  · by_cases hlt : invite.expiresAt < now <;>
      simp [ValidateInviteForJoin, InviteStatusUsed, InviteStatusActive, hact, hexp, hlt]

theorem expiry_strictly_after_witness :
    (ValidateInviteForJoin
      { version := 1, id := "i1", secretHash := "h", status := "active",
        createdAt := 0, expiresAt := 10, createdBy := "", usedByRequestID := "",
        usedAt := 0 } 10 = none) ∧
    (ValidateInviteForJoin
      { version := 1, id := "i1", secretHash := "h", status := "active",
        createdAt := 0, expiresAt := 10, createdBy := "", usedByRequestID := "",
        usedAt := 0 } 11 = some .inviteExpired) :=
  ⟨(expiry_strictly_after _ 10 rfl (by decide)).1 (by decide),
   (expiry_strictly_after _ 11 rfl (by decide)).2.mpr (by decide)⟩

/-- C10: an invite whose `expires_at` is the zero time never expires: the
expiry check is false for every current time, `ValidateInviteForJoin` never
returns `InviteExpiredError` (and succeeds outright for active/legacy-empty
status), and `NewJoinRequest` never fails with `InviteExpiredError`, whatever
the current time, the existing requests and the other arguments. -/
theorem zero_expiry_never_expires (invite : Invite) (now : Int)
    (existing : List Request) (dn pk fp nid : String)
    (hz : invite.expiresAt = 0) :
    isInviteExpired invite now = false ∧
    ValidateInviteForJoin invite now ≠ some .inviteExpired ∧
    ((invite.status = "active" ∨ invite.status = "") →
       ValidateInviteForJoin invite now = none) ∧
    NewJoinRequest existing invite dn pk fp now nid ≠ .error .inviteExpired := by
  have hexp : isInviteExpired invite now = false := by simp [isInviteExpired, hz]
  refine ⟨hexp, ?_, fun h => ?_, ?_⟩
  · unfold ValidateInviteForJoin
    split
    · simp
    · split
      · simp
      · rw [hexp]; simp
  · rcases h with h | h <;>
      simp [ValidateInviteForJoin, InviteStatusUsed, InviteStatusActive, h, hexp]
  · unfold NewJoinRequest
    rw [hexp]
    split
    · simp
    · simp only [Bool.false_eq_true, if_false]
      split
      · simp
      · split
        · simp
        · cases hfc : findPendingConflict invite.id (goTrim fp) existing with
          | none => simp [hfc]
          | some e =>
            simp only [hfc]
            intro heq
            have he : e = .inviteExpired := by
              simpa using heq
            exact findPendingConflict_ne_expired invite.id (goTrim fp) existing
              (by rw [hfc, he])

theorem zero_expiry_never_expires_witness :
    NewJoinRequest []
      { version := 1, id := "i1", secretHash := "h", status := "active",
        createdAt := 0, expiresAt := 0, createdBy := "", usedByRequestID := "",
        usedAt := 0 } "dev" "pub" "fpr" 999999999 "rid"
      ≠ .error .inviteExpired :=
  (zero_expiry_never_expires _ 999999999 [] "dev" "pub" "fpr" "rid" rfl).2.2.2

/-- C8: `NewInvite` fails with the TTL validation error exactly when
`ttl ≤ 0`; for `ttl > 0` the invite has `expires_at = created_at + ttl`
(hence strictly later), status `active`, and carries only the hash of the
secret: any secret with the same hash yields the very same invite, the raw
secret appearing only in the returned token. -/
theorem newInvite_spec (ttl : Int) (cb id secret : String) (now : Int) :
    (ttl ≤ 0 → NewInvite ttl cb id secret now = .error .ttlNotPositive) ∧
    (0 < ttl → ∃ invite token,
      NewInvite ttl cb id secret now = .ok (invite, token) ∧
      invite.status = "active" ∧
      invite.createdAt = now ∧
      invite.expiresAt = invite.createdAt + ttl ∧
      invite.createdAt < invite.expiresAt ∧
      invite.secretHash = secretHash secret ∧
      token = formatToken id secret ∧
      ∀ secret', secretHash secret' = secretHash secret →
        NewInvite ttl cb id secret' now = .ok (invite, formatToken id secret')) := by
  constructor
  · intro h
    simp [NewInvite, h]
  · intro h
    have hn : ¬ ttl ≤ 0 := not_le.mpr h
    refine ⟨{ version := 1, id := id, secretHash := secretHash secret,
              status := InviteStatusActive, createdAt := now,
              expiresAt := now + ttl, createdBy := goTrim cb,
              usedByRequestID := "", usedAt := 0 },
            formatToken id secret, ?_, rfl, rfl, rfl, ?_, rfl, rfl, ?_⟩
    · simp [NewInvite, hn]
    · simpa using h
    · intro s' hs'
      simp [NewInvite, hn, hs', InviteStatusActive]

theorem newInvite_spec_witness :
    (NewInvite (-3) "alice" "id1" "sec" 100 = .error .ttlNotPositive) ∧
    (∃ invite token,
      NewInvite 60 "alice" "id1" "sec" 100 = .ok (invite, token) ∧
      invite.status = "active" ∧
      invite.createdAt = 100 ∧
      invite.expiresAt = invite.createdAt + 60 ∧
      invite.createdAt < invite.expiresAt ∧
      invite.secretHash = secretHash "sec" ∧
      token = formatToken "id1" "sec" ∧
      ∀ secret', secretHash secret' = secretHash "sec" →
        NewInvite 60 "alice" "id1" secret' 100 = .ok (invite, formatToken "id1" secret')) :=
  ⟨(newInvite_spec (-3) "alice" "id1" "sec" 100).1 (by decide),
   (newInvite_spec 60 "alice" "id1" "sec" 100).2 (by decide)⟩

/-- C1 counterexample: a freshly reloaded `used` invite whose non-zero
`expires_at` (5) lies before the current time (10): `NewJoinRequest` checks
expiry before the used-status check, so it fails with `InviteExpiredError`,
not `InviteUsedError` — refuting "fails with InviteUsedError ... regardless
of the invite's expires_at". -/
theorem used_invite_join_counterexample :
    NewJoinRequest []
      { version := 1, id := "abc", secretHash := "h", status := "used",
        createdAt := 0, expiresAt := 5, createdBy := "",
        usedByRequestID := "r1", usedAt := 6 } "dev" "pub" "fpr" 10 "rid"
      = .error .inviteExpired ∧
    NewJoinRequest []
      { version := 1, id := "abc", secretHash := "h", status := "used",
        createdAt := 0, expiresAt := 5, createdBy := "",
        usedByRequestID := "r1", usedAt := 6 } "dev" "pub" "fpr" 10 "rid"
      ≠ .error .inviteUsed := by
  constructor
  · rfl
  · decide

/-- C1 (amended): for every invite with status `used` and a non-empty
trimmed id, `NewJoinRequest` always fails, regardless of the existing
request list: with `InviteUsedError` when the invite is not expired at the
current time, and with `InviteExpiredError` when it is (the expiry check
runs first). -/
theorem used_invite_join_rejected (existing : List Request) (invite : Invite)
    (dn pk fp : String) (now : Int) (nid : String)
    (hused : invite.status = "used") (hid : goTrim invite.id ≠ "") :
    (isInviteExpired invite now = false →
       NewJoinRequest existing invite dn pk fp now nid = .error .inviteUsed) ∧
    (isInviteExpired invite now = true →
       NewJoinRequest existing invite dn pk fp now nid = .error .inviteExpired) := by
  constructor <;> intro hexp <;>
    simp [NewJoinRequest, InviteStatusUsed, hused, hid, hexp]

theorem used_invite_join_rejected_witness :
    NewJoinRequest []
      { version := 1, id := "abc", secretHash := "h", status := "used",
        createdAt := 0, expiresAt := 50, createdBy := "",
        usedByRequestID := "r1", usedAt := 6 } "dev" "pub" "fpr" 10 "rid"
      = .error .inviteUsed :=
  (used_invite_join_rejected [] _ "dev" "pub" "fpr" 10 "rid" rfl (by decide)).1 (by decide)

/-- C3: with exactly one pending request `r0` (for invite `inv`, fingerprint
`r0.fingerprint`) on file, and non-expired active invites: a second
`NewJoinRequest` for the same invite with a different fingerprint fails with
the invite-pending conflict; one for a different valid invite `invB` but the
same fingerprint fails with the device-pending conflict (naming `r0`'s
device); one for a different valid invite and a different fingerprint
succeeds with a pending request. -/
theorem pending_uniqueness (r0 : Request) (inv invB : Invite)
    (dn pk fpA fpB fpC : String) (now : Int) (nidA nidB nidC : String)
    (hr0 : r0.status = "pending")
    (hr0inv : r0.inviteID = inv.id)
    (hAid : goTrim inv.id ≠ "") (hAact : inv.status = "active")
    (hAexp : isInviteExpired inv now = false)
    (hBid : goTrim invB.id ≠ "") (hBact : invB.status = "active")
    (hBexp : isInviteExpired invB now = false)
    (hBne : r0.inviteID ≠ invB.id)
    (hfpA : goTrim fpA ≠ r0.fingerprint)
    (hfpB : goTrim fpB = r0.fingerprint)
    (hfpC : goTrim fpC ≠ r0.fingerprint) :
    NewJoinRequest [r0] inv dn pk fpA now nidA
      = .error (.pendingForInvite inv.id) ∧
    NewJoinRequest [r0] invB dn pk fpB now nidB
      = .error (.devicePending r0.deviceName) ∧
    (∃ req, NewJoinRequest [r0] invB dn pk fpC now nidC = .ok req ∧
      req.status = "pending") := by
  have hfpD : r0.fingerprint ≠ goTrim fpC := fun h => hfpC h.symm
  have hfpE : r0.fingerprint = goTrim fpB := hfpB.symm
  refine ⟨?_, ?_, ?_⟩
  · simp [NewJoinRequest, InviteStatusUsed, InviteStatusActive, hAid, hAact, hAexp,
      findPendingConflict, hr0inv, hr0, RequestStatusPending]
  · simp [NewJoinRequest, InviteStatusUsed, InviteStatusActive, hBid, hBact, hBexp,
      findPendingConflict, hr0, hfpE, hBne, RequestStatusPending]
  · refine ⟨{ version := 1, id := nidC, inviteID := invB.id,
              status := RequestStatusPending, createdAt := now,
              decisionAt := 0, decisionNote := "", deviceName := goTrim dn,
              publicKey := goTrim pk, fingerprint := goTrim fpC }, ?_, rfl⟩
    simp [NewJoinRequest, InviteStatusUsed, InviteStatusActive, hBid, hBact, hBexp,
      findPendingConflict, hr0, hBne, hfpD, RequestStatusPending]

theorem pending_uniqueness_witness :
    NewJoinRequest
      [{ version := 1, id := "r0", inviteID := "inv1", status := "pending",
         createdAt := 1, decisionAt := 0, decisionNote := "",
         deviceName := "old-pc", publicKey := "pubOld", fingerprint := "fp0" }]
      { version := 1, id := "inv1", secretHash := "h1", status := "active",
        createdAt := 0, expiresAt := 100, createdBy := "", usedByRequestID := "",
        usedAt := 0 } "new-pc" "pubNew" "fp9" 5 "r9"
      = .error (.pendingForInvite "inv1") ∧
    NewJoinRequest
      [{ version := 1, id := "r0", inviteID := "inv1", status := "pending",
         createdAt := 1, decisionAt := 0, decisionNote := "",
         deviceName := "old-pc", publicKey := "pubOld", fingerprint := "fp0" }]
      { version := 1, id := "inv2", secretHash := "h2", status := "active",
        createdAt := 0, expiresAt := 100, createdBy := "", usedByRequestID := "",
        usedAt := 0 } "new-pc" "pubNew" "fp0" 5 "r9"
      = .error (.devicePending "old-pc") ∧
    (∃ req, NewJoinRequest
      [{ version := 1, id := "r0", inviteID := "inv1", status := "pending",
         createdAt := 1, decisionAt := 0, decisionNote := "",
         deviceName := "old-pc", publicKey := "pubOld", fingerprint := "fp0" }]
      { version := 1, id := "inv2", secretHash := "h2", status := "active",
        createdAt := 0, expiresAt := 100, createdBy := "", usedByRequestID := "",
        usedAt := 0 } "new-pc" "pubNew" "fp9" 5 "r9" = .ok req ∧
      req.status = "pending") :=
  pending_uniqueness
    { version := 1, id := "r0", inviteID := "inv1", status := "pending",
      createdAt := 1, decisionAt := 0, decisionNote := "",
      deviceName := "old-pc", publicKey := "pubOld", fingerprint := "fp0" }
    { version := 1, id := "inv1", secretHash := "h1", status := "active",
      createdAt := 0, expiresAt := 100, createdBy := "", usedByRequestID := "",
      usedAt := 0 }
    { version := 1, id := "inv2", secretHash := "h2", status := "active",
      createdAt := 0, expiresAt := 100, createdBy := "", usedByRequestID := "",
      usedAt := 0 }
    "new-pc" "pubNew" "fp9" "fp0" "fp9" 5 "r9" "r9" "r9"
    rfl rfl (by decide) rfl (by decide) (by decide) rfl (by decide)
    (by decide) (by decide) (by decide) (by decide)

lemma revokeFirst_none {q : String} :
    ∀ l : List Recipient,
      (∀ r ∈ l, goEqFold r.name q = false ∧ goEqFold r.fingerprint q = false) →
      revokeFirst q l = none
  | [], _ => rfl
  | r :: rest, h => by
    have hr := h r (by simp)
    have hrest := revokeFirst_none rest (fun x hx => h x (by simp [hx]))
    simp [revokeFirst, hr.1, hr.2, hrest]

lemma revoked_update_self (r : Recipient) (h : r.status = "revoked") :
    { r with status := StatusRevoked } = r := by
  cases r
  simp_all [StatusRevoked]

lemma revokeFirst_already_revoked {q : String} :
    ∀ l : List Recipient, ∀ r : Recipient,
      l.find? (fun x => goEqFold x.name q || goEqFold x.fingerprint q) = some r →
      r.status = "revoked" →
      revokeFirst q l = some (r, l) := by
  intro l
  induction l with
  | nil => intro r h; simp at h
  | cons x rest ih =>
    intro r hfind hrev
    by_cases hx : (goEqFold x.name q || goEqFold x.fingerprint q) = true
    · have hxr : x = r := by
        have := List.find?_cons_of_pos (p := fun x =>
          goEqFold x.name q || goEqFold x.fingerprint q) (l := rest) hx
        rw [this] at hfind
        exact Option.some.inj hfind
      subst hxr
      simp [revokeFirst, hx, revoked_update_self x hrev]
    · have := List.find?_cons_of_neg (p := fun x =>
        goEqFold x.name q || goEqFold x.fingerprint q) (l := rest) hx
      rw [this] at hfind
      have hrec := ih r hfind hrev
      simp only [Bool.or_eq_true, not_or, Bool.not_eq_true] at hx
      simp [revokeFirst, hx.1, hx.2, hrec]

lemma store_recipients_self (s : Store) : { s with recipients := s.recipients } = s := by
  cases s
  rfl

/-- C9: `Revoke` with a query matching no entry's name or fingerprint
(case-insensitively, on the trimmed query) fails with `NotFoundError` and
leaves the store untouched; `Revoke` whose first match is an entry already
revoked succeeds again, returning that entry (status revoked) and leaving
the store — every field of every entry — exactly as it was. -/
theorem revoke_spec (s : Store) (q : String) :
    ((∀ r ∈ s.recipients, goEqFold r.name (goTrim q) = false ∧
        goEqFold r.fingerprint (goTrim q) = false) →
      s.Revoke q = (.error .notFound, s)) ∧
    (∀ r, s.recipients.find? (fun x =>
        goEqFold x.name (goTrim q) || goEqFold x.fingerprint (goTrim q)) = some r →
      r.status = "revoked" →
      s.Revoke q = (.ok r, s)) := by
  constructor
  · intro h
    simp [Store.Revoke, revokeFirst_none s.recipients h]
  · intro r hfind hrev
    simp [Store.Revoke, revokeFirst_already_revoked s.recipients r hfind hrev,
      store_recipients_self]

theorem revoke_spec_witness :
    (Store.Revoke
      ⟨1, [{ name := "alice", publicKey := "pA", fingerprint := "fA",
             createdAt := 1, status := "active", source := "", note := "" }]⟩
      "bob" = (.error .notFound,
        ⟨1, [{ name := "alice", publicKey := "pA", fingerprint := "fA",
               createdAt := 1, status := "active", source := "", note := "" }]⟩)) ∧
    (Store.Revoke
      ⟨1, [{ name := "carol", publicKey := "pC", fingerprint := "fC",
             createdAt := 1, status := "revoked", source := "", note := "" }]⟩
      " CAROL " = (.ok { name := "carol", publicKey := "pC", fingerprint := "fC",
                         createdAt := 1, status := "revoked", source := "", note := "" },
        ⟨1, [{ name := "carol", publicKey := "pC", fingerprint := "fC",
               createdAt := 1, status := "revoked", source := "", note := "" }]⟩)) :=
  ⟨(revoke_spec
      ⟨1, [{ name := "alice", publicKey := "pA", fingerprint := "fA",
             createdAt := 1, status := "active", source := "", note := "" }]⟩
      "bob").1 (by decide),
   (revoke_spec
      ⟨1, [{ name := "carol", publicKey := "pC", fingerprint := "fC",
             createdAt := 1, status := "revoked", source := "", note := "" }]⟩
      " CAROL ").2 _ (by decide) rfl⟩

/-- The uniqueness the spec requires between any two registry entries:
names differ case-insensitively, public keys differ, fingerprints differ. -/
def distinctFrom (a b : Recipient) : Prop :=
  goEqFold a.name b.name = false ∧ a.publicKey ≠ b.publicKey ∧
    a.fingerprint ≠ b.fingerprint

/-- The registry uniqueness invariant: every pair of entries is distinct by
name (case-insensitively), public key and fingerprint. -/
def okStore (s : Store) : Prop := s.recipients.Pairwise distinctFrom

/-- A sequence of `Add` calls (each with its own clock reading), keeping the
store of each step and discarding the per-call error, as a caller issuing the
sequence would. -/
def addAll (s : Store) : List (Recipient × Int) → Store
  | [] => s
  | c :: rest => addAll (s.Add c.1 c.2).2 rest

/-- The empty, version-1 registry `LoadOrInit` starts from. -/
def emptyStore : Store := { version := 1, recipients := [] }

lemma findDuplicate_isDuplicate (r : Recipient) :
    ∀ l e, findDuplicate r l = some e → e.isDuplicate = true := by
  intro l
  induction l with
  | nil => intro e h; simp [findDuplicate] at h
  | cons x rest ih =>
    intro e h
    simp only [findDuplicate] at h
    split at h
    · cases h; rfl
    · split at h
      · cases h; rfl
      · exact ih e h

lemma findDuplicate_none (r : Recipient) :
    ∀ l, findDuplicate r l = none →
      ∀ ex ∈ l, goEqFold ex.name r.name = false ∧ ex.publicKey ≠ r.publicKey ∧
        ex.fingerprint ≠ r.fingerprint := by
  intro l
  induction l with
  | nil => intro _ ex hex; simp at hex
  | cons x rest ih =>
    intro h ex hex
    simp only [findDuplicate] at h
    split at h
    · cases h
    · split at h
      · cases h
      · rename_i h1 h2
        rcases List.mem_cons.mp hex with rfl | hex
        · refine ⟨by simpa using h1, ?_, ?_⟩
          · intro hk; exact h2 (Or.inl hk)
          · intro hk; exact h2 (Or.inr hk)
        · exact ih h ex hex

lemma findDuplicate_of_match (r : Recipient) :
    ∀ l, (∃ ex ∈ l, goEqFold ex.name r.name = true ∨ ex.publicKey = r.publicKey ∨
        ex.fingerprint = r.fingerprint) →
      ∃ e, findDuplicate r l = some e := by
  intro l
  induction l with
  | nil => intro h; simp at h
  | cons x rest ih =>
    intro h
    simp only [findDuplicate]
    split
    · exact ⟨_, rfl⟩
    · split
      · exact ⟨_, rfl⟩
      · rename_i h1 h2
        rcases h with ⟨ex, hex, hm⟩
        rcases List.mem_cons.mp hex with rfl | hex
        · rcases hm with hm | hm | hm
          · exact absurd hm (by simpa using h1)
          · exact absurd (Or.inl hm) h2
          · exact absurd (Or.inr hm) h2
        · exact ih ⟨ex, hex, hm⟩

lemma add_error_unchanged (s : Store) (r : Recipient) (now : Int) (e : RecipErr)
    (h : (s.Add r now).1 = some e) : (s.Add r now).2 = s := by
  unfold Store.Add at h ⊢
  by_cases h1 : (normalizeRecipient r now).name = ""
  · simp [h1]
  · by_cases h2 : (normalizeRecipient r now).publicKey = ""
    · simp [h1, h2]
    · cases hd : findDuplicate (normalizeRecipient r now) s.recipients with
      | some e2 => simp [h1, h2, hd]
      | none => simp [h1, h2, hd] at h

lemma add_preserves_okStore (s : Store) (r : Recipient) (now : Int)
    (h : okStore s) : okStore (s.Add r now).2 := by
  unfold Store.Add
  by_cases h1 : (normalizeRecipient r now).name = ""
  · simpa [h1] using h
  · by_cases h2 : (normalizeRecipient r now).publicKey = ""
    · simpa [h1, h2] using h
    · cases hd : findDuplicate (normalizeRecipient r now) s.recipients with
      | some e2 => simpa [h1, h2, hd] using h
      | none =>
        have hdist := findDuplicate_none _ _ hd
        simp only [okStore] at h
        simp only [okStore, h1, h2, hd]
        simp only [if_false]
        rw [List.pairwise_append]
        refine ⟨h, by simp, fun a ha b hb => ?_⟩
        simp only [List.mem_singleton] at hb
        subst hb
        exact hdist a ha

lemma addAll_okStore : ∀ (calls : List (Recipient × Int)) (s : Store),
    okStore s → okStore (addAll s calls)
  | [], _, h => h
  | c :: rest, s, h =>
    addAll_okStore rest (s.Add c.1 c.2).2 (add_preserves_okStore s c.1 c.2 h)

/-- C2 counterexample: on a registry holding `{name "a", key "p", fp "f"}`,
adding `{name " ", key "p", fp "g"}` would violate public-key uniqueness,
yet `Add` fails with the empty-name validation error — not with
`DuplicateError` — because the name check runs before the duplicate scan. -/
theorem add_duplicate_counterexample :
    (Store.Add
      ⟨1, [{ name := "a", publicKey := "p", fingerprint := "f",
             createdAt := 1, status := "active", source := "", note := "" }]⟩
      { name := " ", publicKey := "p", fingerprint := "g", createdAt := 0,
        status := "", source := "", note := "" } 5).1 = some .nameRequired ∧
    RecipErr.nameRequired.isDuplicate = false ∧
    goTrim "p" = "p" := by decide

/-- C2 (amended): any sequence of `Add` calls from the empty registry keeps
every pair of entries distinct by case-insensitive name, public key and
fingerprint; every failing `Add` (validation failures included) leaves the
registry exactly as it was; and an `Add` whose trimmed name and public key
are non-empty and which would collide with an existing entry fails with a
`DuplicateError` and leaves the registry unchanged. -/
theorem add_uniqueness (calls : List (Recipient × Int)) (s : Store)
    (r : Recipient) (now : Int) :
    okStore (addAll emptyStore calls) ∧
    (∀ e, (s.Add r now).1 = some e → (s.Add r now).2 = s) ∧
    (goTrim r.name ≠ "" → goTrim r.publicKey ≠ "" →
      (∃ ex ∈ s.recipients, goEqFold ex.name (goTrim r.name) = true ∨
         ex.publicKey = goTrim r.publicKey ∨
         ex.fingerprint = goTrim r.fingerprint) →
      ∃ e, (s.Add r now).1 = some e ∧ e.isDuplicate = true ∧
        (s.Add r now).2 = s) := by
  refine ⟨addAll_okStore calls emptyStore (by simp [okStore, emptyStore]),
    fun e h => add_error_unchanged s r now e h, fun hn hp hex => ?_⟩
  have hn0 : (normalizeRecipient r now).name = goTrim r.name := rfl
  have hp0 : (normalizeRecipient r now).publicKey = goTrim r.publicKey := rfl
  have hf0 : (normalizeRecipient r now).fingerprint = goTrim r.fingerprint := rfl
  obtain ⟨e, he⟩ := findDuplicate_of_match (normalizeRecipient r now) s.recipients
    (by rw [hn0, hp0, hf0]; exact hex)
  have h1 : (s.Add r now).1 = some e := by
    unfold Store.Add
    rw [if_neg (by rw [hn0]; exact hn), if_neg (by rw [hp0]; exact hp), he]
  exact ⟨e, h1, findDuplicate_isDuplicate _ _ _ he,
    add_error_unchanged s r now e h1⟩

theorem add_uniqueness_witness :
    okStore (addAll emptyStore
      [({ name := "a", publicKey := "p", fingerprint := "f", createdAt := 0,
          status := "", source := "", note := "" }, 1),
       ({ name := "b", publicKey := "q", fingerprint := "g", createdAt := 0,
          status := "", source := "", note := "" }, 2)]) ∧
    ((Store.Add
        ⟨1, [{ name := "a", publicKey := "p", fingerprint := "f",
               createdAt := 1, status := "active", source := "", note := "" }]⟩
        { name := "b", publicKey := "q", fingerprint := "f", createdAt := 0,
          status := "", source := "", note := "" } 5).2
      = ⟨1, [{ name := "a", publicKey := "p", fingerprint := "f",
               createdAt := 1, status := "active", source := "", note := "" }]⟩) ∧
    (∃ e, (Store.Add
        ⟨1, [{ name := "a", publicKey := "p", fingerprint := "f",
               createdAt := 1, status := "active", source := "", note := "" }]⟩
        { name := "b", publicKey := "q", fingerprint := "f", createdAt := 0,
          status := "", source := "", note := "" } 5).1 = some e ∧
      e.isDuplicate = true ∧
      (Store.Add
        ⟨1, [{ name := "a", publicKey := "p", fingerprint := "f",
               createdAt := 1, status := "active", source := "", note := "" }]⟩
        { name := "b", publicKey := "q", fingerprint := "f", createdAt := 0,
          status := "", source := "", note := "" } 5).2
      = ⟨1, [{ name := "a", publicKey := "p", fingerprint := "f",
               createdAt := 1, status := "active", source := "", note := "" }]⟩) :=
  ⟨(add_uniqueness
      [({ name := "a", publicKey := "p", fingerprint := "f", createdAt := 0,
          status := "", source := "", note := "" }, 1),
       ({ name := "b", publicKey := "q", fingerprint := "g", createdAt := 0,
          status := "", source := "", note := "" }, 2)]
      ⟨1, [{ name := "a", publicKey := "p", fingerprint := "f",
             createdAt := 1, status := "active", source := "", note := "" }]⟩
      { name := "b", publicKey := "q", fingerprint := "f", createdAt := 0,
        status := "", source := "", note := "" } 5).1,
   (add_uniqueness []
      ⟨1, [{ name := "a", publicKey := "p", fingerprint := "f",
             createdAt := 1, status := "active", source := "", note := "" }]⟩
      { name := "b", publicKey := "q", fingerprint := "f", createdAt := 0,
        status := "", source := "", note := "" } 5).2.1
      (.duplicateRecipient "f") (by decide),
   (add_uniqueness []
      ⟨1, [{ name := "a", publicKey := "p", fingerprint := "f",
             createdAt := 1, status := "active", source := "", note := "" }]⟩
      { name := "b", publicKey := "q", fingerprint := "f", createdAt := 0,
        status := "", source := "", note := "" } 5).2.2
      (by decide) (by decide) (by decide)⟩

lemma find?_map_upsert {α : Type} (key : α → String) (y : α) :
    ∀ l : List α, (∃ x ∈ l, key x = key y) →
      (l.map (fun r => if key r = key y then y else r)).find?
        (fun r => key r = key y) = some y := by
  intro l
  induction l with
  | nil => intro h; simp at h
  | cons x rest ih =>
    intro h
    by_cases hx : key x = key y
    · rw [List.map_cons, if_pos hx]
      exact List.find?_cons_of_pos _ (by simp)
    · rw [List.map_cons, if_neg hx]
      rw [List.find?_cons_of_neg _ (by simpa using hx)]
      apply ih
      rcases h with ⟨z, hz, hid⟩
      rcases List.mem_cons.mp hz with rfl | hz
      · exact absurd hid hx
      · exact ⟨z, hz, hid⟩

lemma validateApproval_active (invite : Invite) (h : invite.status = "active") :
    ValidateInviteForApproval invite = none := by
  simp [ValidateInviteForApproval, InviteStatusUsed, InviteStatusActive, h]

/-- C7: approval is duplicate-tolerant on the registry only. With a pending
request on file and its invite active: if `Store.Add` of the request's
device identity fails as a duplicate, the whole approval still succeeds —
the registry is left exactly as it was (no second entry), the request is
re-stored as approved (with decision time and trimmed note), and the invite
is re-stored as used with `used_by_request_id` set to the request's id; if
`Store.Add` fails with any non-duplicate error, the approval aborts with
that error before any write. -/
theorem approve_duplicate_tolerant (st : ProjectState) (reqID note : String)
    (now : Int) (req : Request) (invite : Invite)
    (hreq : loadRequest st (goTrim reqID) = some req)
    (hpend : req.status = "pending")
    (hinv : loadInvite st req.inviteID = some invite)
    (hact : invite.status = "active") :
    (∀ e store, st.recipients.Add (approveRecipient req now) now = (some e, store) →
      e.isDuplicate = true →
      ∃ st', runEnrollApprove st reqID note now = .ok st' ∧
        st'.recipients = st.recipients ∧
        loadRequest st' req.id = some { req with
          status := "approved"
          decisionAt := now
          decisionNote := goTrim note } ∧
        loadInvite st' invite.id = some { invite with
          status := "used"
          usedByRequestID := req.id
          usedAt := now }) ∧
    (∀ e store, st.recipients.Add (approveRecipient req now) now = (some e, store) →
      e.isDuplicate = false →
      runEnrollApprove st reqID note now = .error (.recipientErr e)) := by
  have hval := validateApproval_active invite hact
  have hmemReq : req ∈ st.requests := List.mem_of_find?_eq_some hreq
  have hmemInv : invite ∈ st.invites := List.mem_of_find?_eq_some hinv
  constructor
  · intro e store hadd hdup
    have hstore : store = st.recipients := by
      have h1 : (st.recipients.Add (approveRecipient req now) now).1 = some e := by
        rw [hadd]
      have := add_error_unchanged st.recipients (approveRecipient req now) now e h1
      rw [hadd] at this
      exact this
    subst hstore
    refine ⟨approveCommit st st.recipients req invite note now, ?_, ?_, ?_, ?_⟩
    · simp only [runEnrollApprove, hreq, hpend, hinv, hval, hadd, hdup,
        RequestStatusPending, ne_eq, not_true_eq_false, if_false, if_true]
    · simp [approveCommit, saveRequest, saveInvite]
    · simp only [approveCommit, saveRequest, saveInvite, loadRequest]
      exact find?_map_upsert (fun r => r.id)
        { req with
          status := "approved"
          decisionAt := now
          decisionNote := goTrim note } st.requests ⟨req, hmemReq, rfl⟩
    · simp only [approveCommit, saveRequest, saveInvite, loadInvite]
      exact find?_map_upsert (fun i => i.id)
        { invite with
          status := "used"
          usedByRequestID := req.id
          usedAt := now } st.invites ⟨invite, hmemInv, rfl⟩
  · intro e store hadd hdup
    simp only [runEnrollApprove, hreq, hpend, hinv, hval, hadd, hdup,
      RequestStatusPending, ne_eq, not_true_eq_false, if_false,
      Bool.false_eq_true]

theorem approve_duplicate_tolerant_witness :
    ∃ st', runEnrollApprove
      ⟨⟨1, [{ name := "bobs-pc", publicKey := "pub123", fingerprint := "fp123",
              createdAt := 1, status := "active", source := "", note := "" }]⟩,
       [{ version := 1, id := "inv1", secretHash := "h", status := "active",
          createdAt := 0, expiresAt := 100, createdBy := "",
          usedByRequestID := "", usedAt := 0 }],
       [{ version := 1, id := "req1", inviteID := "inv1", status := "pending",
          createdAt := 2, decisionAt := 0, decisionNote := "",
          deviceName := "bobs-pc", publicKey := "pub123",
          fingerprint := "fp123" }]⟩ "req1" "ok" 50 = .ok st' ∧
    st'.recipients
      = ⟨1, [{ name := "bobs-pc", publicKey := "pub123", fingerprint := "fp123",
               createdAt := 1, status := "active", source := "", note := "" }]⟩ ∧
    loadRequest st' "req1"
      = some { version := 1, id := "req1", inviteID := "inv1",
               status := "approved", createdAt := 2, decisionAt := 50,
               decisionNote := goTrim "ok", deviceName := "bobs-pc",
               publicKey := "pub123", fingerprint := "fp123" } ∧
    loadInvite st' "inv1"
      = some { version := 1, id := "inv1", secretHash := "h", status := "used",
               createdAt := 0, expiresAt := 100, createdBy := "",
               usedByRequestID := "req1", usedAt := 50 } :=
  (approve_duplicate_tolerant
    ⟨⟨1, [{ name := "bobs-pc", publicKey := "pub123", fingerprint := "fp123",
            createdAt := 1, status := "active", source := "", note := "" }]⟩,
     [{ version := 1, id := "inv1", secretHash := "h", status := "active",
        createdAt := 0, expiresAt := 100, createdBy := "",
        usedByRequestID := "", usedAt := 0 }],
     [{ version := 1, id := "req1", inviteID := "inv1", status := "pending",
        createdAt := 2, decisionAt := 0, decisionNote := "",
        deviceName := "bobs-pc", publicKey := "pub123",
        fingerprint := "fp123" }]⟩ "req1" "ok" 50
    { version := 1, id := "req1", inviteID := "inv1", status := "pending",
      createdAt := 2, decisionAt := 0, decisionNote := "",
      deviceName := "bobs-pc", publicKey := "pub123", fingerprint := "fp123" }
    { version := 1, id := "inv1", secretHash := "h", status := "active",
      createdAt := 0, expiresAt := 100, createdBy := "",
      usedByRequestID := "", usedAt := 0 }
    (by decide) rfl (by decide) rfl).1
    (.duplicateName "bobs-pc")
    ⟨1, [{ name := "bobs-pc", publicKey := "pub123", fingerprint := "fp123",
           createdAt := 1, status := "active", source := "", note := "" }]⟩
    (by decide) rfl

/-- The alphabet `randomHex` / `randomTokenSecret` draw from, abstracted to
what the token grammar needs: no whitespace and no separator dot (hex and
base64url characters all satisfy this). -/
def isTokenChar (c : Char) : Bool := !isGoSpace c && c != '.'

lemma string_data_inj {a b : String} (h : a.data = b.data) : a = b :=
  congrArg String.mk h

lemma mk_data (s : String) : String.mk s.data = s := rfl

lemma data_append (a b : String) : (a ++ b).data = a.data ++ b.data := rfl

lemma isPrefixOf_append_self (p rest : List Char) : p.isPrefixOf (p ++ rest) = true :=
  List.isPrefixOf_iff_prefix.mpr (List.prefix_append p rest)

lemma goTrim_eq_self (s : String) (h : ∀ c ∈ s.data, isGoSpace c = false) :
    goTrim s = s := by
  unfold goTrim
  rw [trimList_eq_self h]

lemma ne_empty_of_data {s : String} (h : s.data ≠ []) : ¬ s = "" :=
  fun he => h (by rw [he])

lemma tokenChar_not_space {c : Char} (h : isTokenChar c = true) :
    isGoSpace c = false := by
  simp only [isTokenChar, Bool.and_eq_true, Bool.not_eq_true'] at h
  exact h.1

lemma tokenChar_not_dot {c : Char} (h : isTokenChar c = true) : c ≠ '.' := by
  simp only [isTokenChar, Bool.and_eq_true, bne_iff_ne, ne_eq] at h
  exact h.2

lemma splitChar_no_sep (sep : Char) :
    ∀ l, (∀ c ∈ l, c ≠ sep) → splitChar sep l = [l]
  | [], _ => rfl
  | c :: cs, h => by
    have hc : c ≠ sep := h c (by simp)
    have hrec := splitChar_no_sep sep cs (fun x hx => h x (by simp [hx]))
    simp [splitChar, hc, hrec]

lemma splitChar_append (sep : Char) :
    ∀ xs ys, (∀ c ∈ xs, c ≠ sep) → (∀ c ∈ ys, c ≠ sep) →
      splitChar sep (xs ++ sep :: ys) = [xs, ys]
  | [], ys, _, hy => by simp [splitChar, splitChar_no_sep sep ys hy]
  | x :: xs, ys, hx, hy => by
    have h1 : x ≠ sep := hx x (by simp)
    have hrec := splitChar_append sep xs ys (fun c hc => hx c (by simp [hc])) hy
    simp [splitChar, h1, hrec]

lemma formatToken_data (id secret : String) :
    (formatToken id secret).data
      = ("envlock-invite-" : String).data ++ (id.data ++ '.' :: secret.data) := by
  show (("envlock-invite-" ++ id ++ "." ++ secret) : String).data = _
  simp only [data_append, List.append_assoc]
  simp [show ("." : String).data = ['.'] from rfl]

lemma secretHash_inj {a b : String}
    (ha : ∀ c ∈ a.data, isGoSpace c = false)
    (hb : ∀ c ∈ b.data, isGoSpace c = false)
    (h : secretHash a = secretHash b) : a = b := by
  unfold secretHash at h
  rw [trimList_eq_self ha, trimList_eq_self hb] at h
  have h2 : sha256Tag ++ a.data = sha256Tag ++ b.data := congrArg String.data h
  exact string_data_inj (List.append_cancel_left h2)

lemma parse_formatToken (id secret : String)
    (hid : id.data ≠ []) (hidc : ∀ c ∈ id.data, isTokenChar c = true)
    (hsec : secret.data ≠ []) (hsecc : ∀ c ∈ secret.data, isTokenChar c = true) :
    ParseToken (formatToken id secret) = .ok (id, secret) := by
  have hpfx : ∀ c ∈ ("envlock-invite-" : String).data, isGoSpace c = false := by
    decide
  have hspace : ∀ c ∈ (formatToken id secret).data, isGoSpace c = false := by
    intro c hc
    rw [formatToken_data] at hc
    rcases List.mem_append.mp hc with hc | hc
    · exact hpfx c hc
    · rcases List.mem_append.mp hc with hc | hc
      · exact tokenChar_not_space (hidc c hc)
      · rcases List.mem_cons.mp hc with rfl | hc
        · decide
        · exact tokenChar_not_space (hsecc c hc)
  have htrim : goTrim (formatToken id secret) = formatToken id secret :=
    goTrim_eq_self _ hspace
  have hpre : goHasPrefix (formatToken id secret) "envlock-invite-" = true := by
    unfold goHasPrefix
    rw [formatToken_data]
    exact isPrefixOf_append_self _ _
  have hbody : (goDropLen (formatToken id secret) "envlock-invite-").data
      = id.data ++ '.' :: secret.data := by
    show ((formatToken id secret).data.drop
      ("envlock-invite-" : String).data.length) = _
    rw [formatToken_data]
    exact List.drop_left _ _
  have hsplit : splitChar '.' (goDropLen (formatToken id secret)
      "envlock-invite-").data = [id.data, secret.data] := by
    rw [hbody]
    exact splitChar_append '.' id.data secret.data
      (fun c hc => tokenChar_not_dot (hidc c hc))
      (fun c hc => tokenChar_not_dot (hsecc c hc))
  have e1 : goTrim id = id :=
    goTrim_eq_self id (fun c hc => tokenChar_not_space (hidc c hc))
  have e2 : goTrim secret = secret :=
    goTrim_eq_self secret (fun c hc => tokenChar_not_space (hsecc c hc))
  have n1 : ¬ id = "" := ne_empty_of_data hid
  have n2 : ¬ secret = "" := ne_empty_of_data hsec
  simp only [ParseToken, htrim, hpre, if_true, hsplit, List.map_cons,
    List.map_nil, mk_data, e1, e2]
  simp [n1, n2]

/-- C6 counterexample: from invite id `"abc"` and secret `"s"`, `NewInvite`
issues the token `envlock-invite-abc.s`; the token `envlock-invite- abc.s`
differs from it in the id portion (`" abc"` vs `"abc"`), yet `VerifyToken`
accepts it, because `VerifyToken` compares the parsed id only after
whitespace-trimming both sides — refuting "fails ... for every token that
differs from the issued token in the id portion". -/
theorem verifyToken_mismatch_counterexample :
    NewInvite 10 "" "abc" "s" 0
      = .ok ({ version := 1, id := "abc", secretHash := secretHash "s",
               status := "active", createdAt := 0, expiresAt := 10,
               createdBy := "", usedByRequestID := "", usedAt := 0 },
             "envlock-invite-abc.s") ∧
    ParseToken "envlock-invite- abc.s" = .ok (" abc", "s") ∧
    (" abc" : String) ≠ "abc" ∧
    VerifyToken
      { version := 1, id := "abc", secretHash := secretHash "s",
        status := "active", createdAt := 0, expiresAt := 10,
        createdBy := "", usedByRequestID := "", usedAt := 0 }
      "envlock-invite- abc.s" = none := by
  refine ⟨?_, ?_, by decide, ?_⟩ <;> decide

/-- C6 (amended): for `ttl > 0` and any `created_by`, with the random id and
secret drawn from their whitespace-free, dot-free alphabets (hex and
base64url), `New` yields `(invite, token)` with `VerifyToken invite token`
succeeding; and `VerifyToken invite t` fails with `InvalidTokenError` for
every well-formed token `t` built from an id portion or secret portion drawn
from those alphabets that differs (as a string) from the issued one — tokens
whose portions differ only by surrounding whitespace, however, are still
accepted, as the counterexample shows. -/
theorem token_roundtrip (ttl : Int) (cb id secret : String) (now : Int)
    (httl : 0 < ttl)
    (hid : id.data ≠ []) (hidc : ∀ c ∈ id.data, isTokenChar c = true)
    (hsec : secret.data ≠ []) (hsecc : ∀ c ∈ secret.data, isTokenChar c = true) :
    ∃ invite,
      NewInvite ttl cb id secret now = .ok (invite, formatToken id secret) ∧
      VerifyToken invite (formatToken id secret) = none ∧
      (∀ idB secB, idB.data ≠ [] → (∀ c ∈ idB.data, isTokenChar c = true) →
        secB.data ≠ [] → (∀ c ∈ secB.data, isTokenChar c = true) →
        (idB ≠ id ∨ secB ≠ secret) →
        VerifyToken invite (formatToken idB secB) = some .invalidToken) := by
  have e1 : goTrim id = id :=
    goTrim_eq_self id (fun c hc => tokenChar_not_space (hidc c hc))
  refine ⟨{ version := 1, id := id, secretHash := secretHash secret,
            status := InviteStatusActive, createdAt := now,
            expiresAt := now + ttl, createdBy := goTrim cb,
            usedByRequestID := "", usedAt := 0 }, ?_, ?_, ?_⟩
  · simp [NewInvite, not_le.mpr httl]
  · simp [VerifyToken, parse_formatToken id secret hid hidc hsec hsecc]
  · intro idB secB hidB hidcB hsecB hseccB hne
    have hparse := parse_formatToken idB secB hidB hidcB hsecB hseccB
    have e2 : goTrim idB = idB :=
      goTrim_eq_self idB (fun c hc => tokenChar_not_space (hidcB c hc))
    simp only [VerifyToken, hparse]
    by_cases heq : idB = id
    · subst heq
      have hsne : secB ≠ secret := by
        rcases hne with h | h
        · exact absurd rfl h
        · exact h
      have hhash : secretHash secret ≠ secretHash secB := fun hh =>
        hsne ((secretHash_inj
          (fun c hc => tokenChar_not_space (hsecc c hc))
          (fun c hc => tokenChar_not_space (hseccB c hc)) hh).symm)
      simp [e1, hhash]
    · have hne2 : id ≠ idB := fun h => heq h.symm
      simp [e1, e2, hne2]

theorem token_roundtrip_witness :
    ∃ invite,
      NewInvite 900 "alice-laptop" "abc1" "s3cr3t" 0
        = .ok (invite, formatToken "abc1" "s3cr3t") ∧
      VerifyToken invite (formatToken "abc1" "s3cr3t") = none ∧
      (∀ idB secB, idB.data ≠ [] → (∀ c ∈ idB.data, isTokenChar c = true) →
        secB.data ≠ [] → (∀ c ∈ secB.data, isTokenChar c = true) →
        (idB ≠ "abc1" ∨ secB ≠ "s3cr3t") →
        VerifyToken invite (formatToken idB secB) = some .invalidToken) :=
  token_roundtrip 900 "alice-laptop" "abc1" "s3cr3t" 0 (by decide) (by decide)
    (by decide) (by decide) (by decide)

end Envlock
